import Mathlib

/-
Verification of the welovebot extension runtime: a shallow embedding of
the configuration resolver (src/welovebot/lib/config.py), the extension
discovery code (src/welovebot/lib/bot.py), the periodic task scheduler
(src/welovebot/lib/cog.py) and the shared HTTP site startup
(src/welovebot/lib/web.py), together with theorems about the behaviors
the specification describes.
-/

/- ------------------------------------------------------------------ -/
/- Python string primitives used by the configuration code.            -/
/- ------------------------------------------------------------------ -/

/-- Model of Python `str.upper()` (ASCII case mapping, which is all the
configuration code uses: keys are ASCII identifiers). -/
def pyUpper (s : String) : String := ⟨s.data.map Char.toUpper⟩

/-- Whitespace recognized by Python `str.strip()` (the ASCII portion). -/
def isPySpace (c : Char) : Bool :=
  c = ' ' || c = '\t' || c = '\n' || c = '\r' || c = '\x0b' || c = '\x0c'

/-- Drop leading whitespace from a character list. -/
def dropLeadingSpaces : List Char → List Char
  | [] => []
  | c :: rest => if isPySpace c then dropLeadingSpaces rest else c :: rest

/-- Model of Python `str.strip()` with no arguments. -/
def pyStrip (s : String) : String :=
  ⟨(dropLeadingSpaces (dropLeadingSpaces s.data.reverse).reverse)⟩

/-- Model of Python `str.split(sep)` for a one-character separator,
over character lists.  Python's split always yields one more segment
than there are separators; in particular splitting the empty string
yields `[[]]` (one empty segment), never `[]`. -/
def pySplitChar (sep : Char) : List Char → List (List Char)
  | [] => [[]]
  | c :: rest =>
    match pySplitChar sep rest with
    | [] => [[c]]
    | seg :: segs => if c = sep then [] :: seg :: segs else (c :: seg) :: segs

/-- Model of Python `str.split(sep)` for a one-character separator. -/
def pySplit (sep : Char) (s : String) : List String :=
  (pySplitChar sep s.data).map (fun l => ⟨l⟩)

/-- Accumulate the decimal value of a digit run; `none` on a non-digit. -/
def digitsValAux (acc : Nat) : List Char → Option Nat
  | [] => some acc
  | c :: rest =>
    if c.isDigit then digitsValAux (acc * 10 + (c.toNat - '0'.toNat)) rest else none

/-- Numeric value of a nonempty all-digit character list, `none` otherwise. -/
def digitsVal : List Char → Option Nat
  | [] => none
  | c :: rest => digitsValAux 0 (c :: rest)

/-- Model of Python `int(s)` on a decimal string: surrounding whitespace
is ignored, an optional sign is allowed, the rest must be digits;
`none` models the `ValueError` that `int('')` or `int('abc')` raises.
(Python also accepts grouping underscores; the configuration values the
claims concern do not use them.) -/
def pyInt (s : String) : Option Int :=
  match (pyStrip s).data with
  | '+' :: rest => (digitsVal rest).map (fun n => (n : Int))
  | '-' :: rest => (digitsVal rest).map (fun n => -(n : Int))
  | rest => (digitsVal rest).map (fun n => (n : Int))

/-- Scanner behind `PrefixConfig._unjoin_prefix` (`s.split('__')[-1]`):
walk the characters, restarting the current segment after each
non-overlapping occurrence of `__` found scanning from the left, and
return the final segment — exactly the last element of Python's split. -/
def pyUnjoinAux : List Char → List Char → List Char
  | acc, [] => acc.reverse
  | _, '_' :: '_' :: rest => pyUnjoinAux [] rest
  | acc, c :: rest => pyUnjoinAux (c :: acc) rest

/-- Model of `PrefixConfig._unjoin_prefix`: `str(s.split('__')[-1])`. -/
def pyUnjoin (s : String) : String := ⟨pyUnjoinAux [] s.data⟩

/-- Helper behind `EnvConfig._snake_case`: insert `_` before every
maximal run of uppercase letters that does not start the string
(Python regex `re.sub('(?!^)([A-Z]+)', r'_\1', s)`), tracking whether
the previous character was uppercase. -/
def pySnakeAux (prevUpper : Bool) : List Char → List Char
  | [] => []
  | c :: rest =>
    if c.isUpper && !prevUpper then '_' :: c :: pySnakeAux true rest
    else c :: pySnakeAux c.isUpper rest

/-- Model of `EnvConfig._snake_case` on a plain class name:
underscore insertion at case boundaries followed by `.upper()`
(`MyExt` becomes `MY_EXT`). -/
def _snake_case (s : String) : String :=
  pyUpper (match s.data with
           | [] => ""
           | c :: rest => ⟨c :: pySnakeAux c.isUpper rest⟩)

/- ------------------------------------------------------------------ -/
/- Keys and prefixing (config.py: KeyT, PrefixConfig).                 -/
/- ------------------------------------------------------------------ -/

/-- A Python string that is either a plain `str` or a `KeyT`-tagged key
(config.py line 243: `class KeyT(str)`), the tag `PrefixConfig._key`
uses to avoid re-prefixing. -/
inductive PyStr where
  | raw (s : String)
  | keyT (s : String)
deriving DecidableEq

/-- The underlying string of a possibly tagged key. -/
def keyStr : PyStr → String
  | .raw s => s
  | .keyT s => s

/-- Model of `PrefixConfig._join_prefix(*s)` at its two-segment uses:
`KeyT(('__'.join(s)).upper())` (config.py lines 117-119). -/
def _join_prefix (a b : String) : PyStr := .keyT (pyUpper (a ++ "__" ++ b))

/-- Model of `PrefixConfig._key` (config.py lines 132-135): a `KeyT`
is returned unchanged, a raw string is joined onto the prefix. -/
def PrefixConfig_key (pfx : String) : PyStr → PyStr
  | .keyT s => .keyT s
  | .raw s => _join_prefix pfx s

/-- Model of `PrefixConfig._unkey` / `CogConfig`'s use of it
(config.py lines 137-140): only a `KeyT` is un-joined, a raw string is
returned unchanged. -/
def _unkey : PyStr → String
  | .raw s => s
  | .keyT s => pyUnjoin s

/-- Model of the prefix `CogConfig.__post_init__` computes
(config.py lines 372-374): `_join_prefix(self.prefix, _snake_case(ext.__name__))`. -/
def CogConfig_prefix (botPfx extName : String) : String :=
  keyStr ( _join_prefix botPfx ( _snake_case extName))

/- ------------------------------------------------------------------ -/
/- Failure kinds of the configuration resolver.                        -/
/- ------------------------------------------------------------------ -/

/-- The exceptions configuration lookups can raise: `KeyError` (a miss,
the spec's NotFound), `TypeError` (an undeclared key in a `TypedConfig`,
the spec's UndeclaredKey), `ValueError` (a failed coercion such as
`int('')`, the spec's InvalidValue) and the `assert False` in
`ChainConfig` that guards its supposedly unreachable fall-through. -/
inductive CfgError where
  | keyError
  | typeError (key : String)
  | valueError (raw : String)
  | assertionError
deriving DecidableEq

/- ------------------------------------------------------------------ -/
/- Chains (config.py: ChainConfig).                                    -/
/- ------------------------------------------------------------------ -/

/-- A member of a configuration chain: `id` models Python object
identity (two occurrences of the same object in a chain carry the same
`id`, as tested by the `c is self.configs[-1]` check), and `lookup`
models the member's whole `__getitem__` (`none` is a `KeyError`). -/
structure Source where
  id : Nat
  lookup : String → Option String

/-- The loop body of `ChainConfig._getitem` (config.py lines 148-155),
with the identity of `self.configs[-1]` passed in: try each member;
on a `KeyError`, re-raise if this member is the last member (by object
identity), otherwise continue; falling off the loop hits `assert False`. -/
def chainAux (lastId : Nat) : List Source → String → Except CfgError String
  | [], _ => .error .assertionError
  | c :: rest, key =>
    match c.lookup key with
    | some v => .ok v
    | none => if c.id = lastId then .error .keyError else chainAux lastId rest key

/-- Model of `ChainConfig._getitem` (config.py lines 148-155). -/
def chain_getitem (configs : List Source) (key : String) : Except CfgError String :=
  match configs.getLast? with
  | none => .error .assertionError
  | some last => chainAux last.id configs key

/-- The specification's description of chain lookup, written from the
spec's words for comparison: the first member whose lookup succeeds
wins; `none` only when every member misses. -/
def firstHit : List Source → String → Option String
  | [], _ => none
  | c :: rest, key =>
    match c.lookup key with
    | some v => some v
    | none => firstHit rest key

/- ------------------------------------------------------------------ -/
/- Typed lookup (config.py: TypedConfig, _as_sequence).                -/
/- ------------------------------------------------------------------ -/

/-- The collection constructors of `TypedConfig._simple_type_map`. -/
inductive PyColl where
  | set
  | list
  | tuple
deriving DecidableEq

/-- The scalar element types of the coercion table that the claims
exercise (`str` and `int`; `float` is floating point and no declared
setting the claims concern uses it). -/
inductive ScalarAnn where
  | str
  | int
deriving DecidableEq

/-- A value produced by a typed lookup: a scalar, or a collection of
scalars (the coercion table only builds collections of scalars). -/
inductive PyScalar where
  | vstr (s : String)
  | vint (i : Int)
deriving DecidableEq

/-- A coerced configuration value. -/
inductive PyVal where
  | scalar (v : PyScalar)
  | coll (origin : PyColl) (elems : List PyScalar)
deriving DecidableEq

/-- A declared annotation after normalization: the three source forms
(a string such as `'Set[int]'` parsed by regex, a `typing` generic
alias, or a bare type) all reduce to a scalar or an
origin-plus-element-type pair before the coercion table is consulted
(config.py lines 206-221). -/
inductive TypeAnn where
  | scalar (t : ScalarAnn)
  | coll (origin : PyColl) (elem : ScalarAnn)
deriving DecidableEq

/-- Scalar coercion from the `_simple_type_map`: `str` returns the raw
string, `int` parses it, raising `ValueError` (`InvalidValue`) on a
string `int()` rejects. -/
def scalarCast : ScalarAnn → String → Except CfgError PyScalar
  | .str, s => .ok (.vstr s)
  | .int, s =>
    match pyInt s with
    | some i => .ok (.vint i)
    | none => .error (.valueError s)

/-- Keep the first occurrence of each element, dropping later
duplicates: the observable content of building a Python `set` from the
generator (membership and cardinality agree with the real set). -/
def pyDedup (seen : List PyScalar) : List PyScalar → List PyScalar
  | [] => []
  | x :: xs => if x ∈ seen then pyDedup seen xs else x :: pyDedup (x :: seen) xs

/-- Model of `_as_sequence(to)` / `_to_seq` (config.py lines 171-175):
`to(cls(_.strip()) for _ in seq.split(','))` — split the raw value on
commas, strip each piece, coerce each piece with the element cast, and
build the collection (a `set` drops duplicates).  The first failing
element's `ValueError` propagates, as the generator would raise it. -/
def _as_sequence (toColl : PyColl) (cast : String → Except CfgError PyScalar)
    (seq : String) : Except CfgError PyVal :=
  match (pySplit ',' seq).mapM (fun x => cast (pyStrip x)) with
  | .ok elems => .ok (.coll toColl (if toColl = .set then pyDedup [] elems else elems))
  | .error e => .error e

/-- Model of `TypedConfig._cast_for_annotation` (config.py lines
206-221) on a normalized annotation. -/
def _cast_for_annotation (value : String) : TypeAnn → Except CfgError PyVal
  | .scalar t => (scalarCast t value).map .scalar
  | .coll o e => _as_sequence o (scalarCast e) value

/-- Model of `TypedConfig._getitem` for a `TypedChainConfig`
(config.py lines 223-228 over lines 148-155): an undeclared key raises
`TypeError` before any source is consulted; otherwise the chain is
queried and a hit is coerced to the declared type. -/
def typedChain_getitem (ann : String → Option TypeAnn) (configs : List Source)
    (key : String) : Except CfgError PyVal :=
  match ann key with
  | none => .error (.typeError key)
  | some a =>
    match chain_getitem configs key with
    | .ok v => _cast_for_annotation v a
    | .error e => .error e

/-- Model of `Config.get(key, default)` (config.py lines 79-85) over a
config's `__getitem__` behavior: only `KeyError` is caught and turned
into the default; every other exception propagates.  (For
`TypedChainConfig` the `_key` hook is the identity, so the double
`_key` application in `get` is omitted.) -/
def Config_get (getitem : String → Except CfgError PyVal) (key : String)
    (default : Option PyVal) : Except CfgError (Option PyVal) :=
  match getitem key with
  | .ok v => .ok (some v)
  | .error .keyError => .ok default
  | .error e => .error e

/- ------------------------------------------------------------------ -/
/- Environment-backed source (config.py: EnvConfig, CogConfig).        -/
/- ------------------------------------------------------------------ -/

/-- Python truthiness of an optional string, as used by the `or` in
`EnvConfig._getitem`: `None` and the empty string are falsy. -/
def pyTruthy (o : Option String) : Option String :=
  match o with
  | some v => if v = "" then none else some v
  | none => none

/-- Model of `EnvConfig._getitem` (config.py lines 259-260):
`self.overrides.get(key) or environ[key]` — a truthy override wins,
otherwise the environment is consulted and a missing variable raises
`KeyError`. -/
def EnvConfig_getitem (overrides environ : String → Option String)
    (key : String) : Except CfgError String :=
  match pyTruthy (overrides key) with
  | some v => .ok v
  | none =>
    match environ key with
    | some w => .ok w
    | none => .error .keyError

/-- Point update of a string map, modelling `self.overrides[key] = value`. -/
def updateFn (f : String → Option String) (k v : String) : String → Option String :=
  fun x => if x = k then some v else f x

/-- Model of `EnvConfig.__setitem__` through `Config.__setitem__`
(config.py lines 75-77 and 262-263): the key is prefixed by `_key`
and the override map is updated at the prefixed key. -/
def EnvConfig_set (pfx : String) (overrides : String → Option String)
    (key : PyStr) (value : String) : String → Option String :=
  updateFn overrides (keyStr (PrefixConfig_key pfx key)) value

/-- Model of `EnvConfig.__getitem__` through `Config.__getitem__`
(config.py lines 64-73): the key is prefixed by `_key` and
`_getitem` is consulted. -/
def EnvConfig_get (pfx : String) (overrides environ : String → Option String)
    (key : PyStr) : Except CfgError String :=
  EnvConfig_getitem overrides environ (keyStr (PrefixConfig_key pfx key))

/-- Model of `CogConfig._getitem` (config.py lines 379-387): try the
environment-backed lookup of the (already prefixed) key; on `KeyError`,
fall back to a class attribute of the extension's declared `Config`
class named with the un-prefixed setting name (`getattr` /
`AttributeError` modelled by an optional attribute map); re-raise the
original `KeyError` when no such attribute exists. -/
def CogConfig_getitem (overrides environ : String → Option String)
    (extConfigAttrs : String → Option PyVal) (key : PyStr) : Except CfgError PyVal :=
  match EnvConfig_getitem overrides environ (keyStr key) with
  | .ok v => .ok (.scalar (.vstr v))
  | .error .keyError =>
    match extConfigAttrs ( _unkey key) with
    | some v => .ok v
    | none => .error .keyError
  | .error e => .error e

/- ------------------------------------------------------------------ -/
/- Extension discovery (bot.py: Bot.discover_extension).               -/
/- ------------------------------------------------------------------ -/

/-- Model of Python `name.startswith('_')`. -/
def pyStartsWithUnderscore (s : String) : Bool :=
  match s.data with
  | '_' :: _ => true
  | _ => false

/-- What a module attribute can classify as in `discover_extension`
(bot.py lines 83-117): a `commands.Cog` instance, a `commands.Cog`
subclass (whose constructed instance carries the `enabled` flag that is
consulted), a `commands.Command`, a primitive literal, or anything
else.  The `enabled` argument is the result of
`getattr(instance, 'enabled', True)`. -/
inductive LoadableKind where
  | cogInstance (cogName : String) (enabled : Bool)
  | cogClass (cogName : String) (enabled : Bool)
  | command
  | primitive
  | other
deriving DecidableEq

/-- A symbol examined by `discover_extension`: its attribute name, the
two ignore conditions tested before classification (module/logger
re-export, foreign `__module__`), and its classification. -/
structure Loadable where
  name : String
  isModuleOrLogger : Bool
  moduleMismatch : Bool
  kind : LoadableKind
deriving DecidableEq

/-- How `discover_extension` disposed of a symbol; `skippedDisabled`
is the branch that logs `disabled Cog ...` without registering. -/
inductive DiscoverOutcome where
  | ignored
  | registeredCog
  | skippedDisabled
  | registeredCommand
  | skippedPrimitive
  | fallbackLoad
deriving DecidableEq

/-- Modelled from the spec: the registry operation behind the external
`nextcord` `Bot.add_cog` call — "process-wide table of registered
Extensions, keyed by discovered name; enforces at-most-one registration
per name (re-registration is an error, not a silent overwrite)",
raising the spec's `DuplicateExtension`.  The registry is the list of
registered cog names. -/
def add_cog (registry : List String) (cogName : String) : Except String (List String) :=
  if cogName ∈ registry then .error "DuplicateExtension" else .ok (cogName :: registry)

/-- Model of `Bot.discover_extension` (bot.py lines 83-117): ignore
private names, module/logger re-exports and foreign-origin symbols;
register an enabled Cog instance or the enabled instance constructed
from a Cog class, but merely log and skip a disabled one; register
commands; silently skip primitive literals; fall back to
`load_extension` for anything else. -/
def discover_extension (registry : List String) (l : Loadable) :
    Except String (List String × DiscoverOutcome) :=
  if pyStartsWithUnderscore l.name || l.isModuleOrLogger || l.moduleMismatch then
    .ok (registry, .ignored)
  else
    match l.kind with
    | .cogInstance n enabled =>
      if enabled then (add_cog registry n).map (fun r => (r, .registeredCog))
      else .ok (registry, .skippedDisabled)
    | .cogClass n enabled =>
      if enabled then (add_cog registry n).map (fun r => (r, .registeredCog))
      else .ok (registry, .skippedDisabled)
    | .command => .ok (registry, .registeredCommand)
    | .primitive => .ok (registry, .skippedPrimitive)
    | .other => .ok (registry, .fallbackLoad)

/- ------------------------------------------------------------------ -/
/- Periodic tasks (cog.py: BaseCog.perodic_task).                      -/
/- ------------------------------------------------------------------ -/

/-- A Python exception as seen by the `except Exception` clause of the
periodic loop: `isExceptionSubclass` records whether it is an instance
of `Exception` (every exception a handler body raises; only
`BaseException`-only instances such as cancellation fall outside). -/
structure PyExc where
  isExceptionSubclass : Bool
  msg : String
deriving DecidableEq

/-- What one pass of the `while True` body of `_perodic_task`
(cog.py lines 119-137) does: either the loop reaches the
`asyncio.sleep(interval)` after the `try`/`except` and continues
(recording the exception the `except Exception` clause logged, if any),
or an uncaught exception escapes and the coroutine dies.  The
elapsed-duration log suffix is wall-clock formatting and is elided. -/
inductive IterResult where
  | continues (loggedException : Option String) (sleptMs : Int)
  | diesWith (e : PyExc)
deriving DecidableEq

/-- One iteration of the periodic loop, given the outcome of awaiting
the bound body (`none` = returned normally, `some e` = raised `e`):
the body runs inside `try`; `except Exception` catches and logs any
`Exception`; the sleep sits after the handler, so both paths sleep the
interval and continue. -/
def perodic_task_iteration (interval_ms : Int) (outcome : Option PyExc) : IterResult :=
  match outcome with
  | none => .continues none interval_ms
  | some e =>
    if e.isExceptionSubclass then .continues (some e.msg) interval_ms
    else .diesWith e

/-- Whether iteration `n` of the loop is reached, for a body whose
outcome on iteration `i` is `body i`: iteration 0 always starts, and
iteration `n + 1` starts exactly when iteration `n` started and its
pass continued to the sleep. -/
def perodic_loop_alive (body : Nat → Option PyExc) (interval_ms : Int) : Nat → Bool
  | 0 => true
  | n + 1 =>
    perodic_loop_alive body interval_ms n &&
      (match perodic_task_iteration interval_ms (body n) with
       | .continues _ _ => true
       | .diesWith _ => false)

/-- The `timedelta(...).total_seconds()` computed by `perodic_task`
(cog.py lines 102-109), in milliseconds to stay in exact integers
(its integer components make the value exact). -/
def perodic_task_interval_ms (seconds weeks days hours minutes milliseconds : Int) : Int :=
  ((((weeks * 7 + days) * 24 + hours) * 60 + minutes) * 60 + seconds) * 1000 + milliseconds

/-- What `perodic_task(...)` captures when the decorator factory runs,
i.e. at class-definition (bind) time: the listener name and the
already-computed interval the wrapper closes over. -/
structure PerodicTaskBinding where
  listener : String
  interval_ms : Int
deriving DecidableEq

/-- Model of the `perodic_task` decorator factory (cog.py lines
91-109): the interval is computed here, once, from the literal integer
components, before any listener event has fired. -/
def perodic_task_bind (seconds weeks days hours minutes milliseconds : Int)
    (listener : String) : PerodicTaskBinding :=
  ⟨listener, perodic_task_interval_ms seconds weeks days hours minutes milliseconds⟩

/-- The interval the spawned loop actually sleeps each iteration once
the triggering listener event fires: the wrapper (cog.py lines
114-139) closes over the `interval` local of the factory, so the
environment in effect at fire time is never consulted. -/
def perodic_loop_interval_ms (b : PerodicTaskBinding)
    (_envAtFire : String → Option String) : Int :=
  b.interval_ms

/-- The minutes component of `Tinybeans.periodic_sync`
(tinybeans.py line 68): `int(os.environ.get('TINYBEANS_INTERVAL', 15))`
evaluated against a given environment; `none` models the `ValueError`
of an unparsable value. -/
def tinybeans_interval_minutes (environ : String → Option String) : Option Int :=
  match environ "TINYBEANS_INTERVAL" with
  | some s => pyInt s
  | none => some 15

/-- The binding `@Cog.perodic_task(minutes=...)` creates for
`Tinybeans.periodic_sync`, with the environment read at
class-definition (bind) time. -/
def tinybeans_periodic_sync_binding (envAtBind : String → Option String) :
    Option PerodicTaskBinding :=
  (tinybeans_interval_minutes envAtBind).map
    (fun m => perodic_task_bind 0 0 0 0 m 0 "on_ready")

/-- Written from the spec's words, for comparison: the interval that
would govern the cadence if the specification were resolved at the
moment the listener fires ("configuration in effect at runtime start
governs the cadence"). -/
def spec_fire_time_interval_ms (envAtFire : String → Option String) : Option Int :=
  (tinybeans_interval_minutes envAtFire).map (fun m => 60000 * m)

/- ------------------------------------------------------------------ -/
/- Shared HTTP site startup (web.py: WebCog.start).                    -/
/- ------------------------------------------------------------------ -/

/-- Program counter of one `WebCog.start` invocation (web.py lines
95-112), with an interleaving point at every `await`:
`start` → waiting on `async with WebCog._lock`;
`hasLock` → inside the lock, about to test `WebCog._site`;
`setup` → observed no site, about to `await runner.setup()`;
`bindSite` → about to assign `WebCog._site` and bind the socket with
`await WebCog._site.start()`;
`started` → socket bound, about to leave the `async with` block;
`done` → returned (lock released). -/
inductive WebPC where
  | start
  | hasLock
  | setup
  | bindSite
  | started
  | done
deriving DecidableEq

/-- Global state of `n` concurrent `WebCog.start` invocations fired by
`on_ready`: each task's program counter, the permits of the class-level
`WebCog._lock` (`asyncio.Semaphore()`, one permit), whether
`WebCog._site` is set, and how many times the listening socket has
been bound. -/
structure WebState (n : Nat) where
  pcs : Fin n → WebPC
  lockAvail : Nat
  site : Bool
  binds : Nat

/-- Initial state: every task waiting, one lock permit, no site. -/
def WebCog_init (n : Nat) : WebState n :=
  ⟨fun _ => .start, 1, false, 0⟩

/-- The cooperative small-step interleaving semantics of
`WebCog.start`: any task may take its next step whenever its guard
holds.  Acquiring the semaphore consumes the permit; both exits of the
`async with` block release it; the `if WebCog._site` test routes to an
early return or into the one-time setup; binding sets `WebCog._site`
and increments the bind counter. -/
inductive WebStep (n : Nat) : WebState n → WebState n → Prop where
  | acquire (s : WebState n) (i : Fin n) :
      s.pcs i = .start → 0 < s.lockAvail →
      WebStep n s ⟨Function.update s.pcs i .hasLock, s.lockAvail - 1, s.site, s.binds⟩
  | checkStarted (s : WebState n) (i : Fin n) :
      s.pcs i = .hasLock → s.site = true →
      WebStep n s ⟨Function.update s.pcs i .done, s.lockAvail + 1, s.site, s.binds⟩
  | checkNotStarted (s : WebState n) (i : Fin n) :
      s.pcs i = .hasLock → s.site = false →
      WebStep n s ⟨Function.update s.pcs i .setup, s.lockAvail, s.site, s.binds⟩
  | runnerSetup (s : WebState n) (i : Fin n) :
      s.pcs i = .setup →
      WebStep n s ⟨Function.update s.pcs i .bindSite, s.lockAvail, s.site, s.binds⟩
  | bind (s : WebState n) (i : Fin n) :
      s.pcs i = .bindSite →
      WebStep n s ⟨Function.update s.pcs i .started, s.lockAvail, true, s.binds + 1⟩
  | exitLock (s : WebState n) (i : Fin n) :
      s.pcs i = .started →
      WebStep n s ⟨Function.update s.pcs i .done, s.lockAvail + 1, s.site, s.binds⟩

/-- The states an `on_ready` fan-out can reach from startup. -/
def WebReachable (n : Nat) (s : WebState n) : Prop :=
  Relation.ReflTransGen (WebStep n) (WebCog_init n) s

/-- A task holding the class-level semaphore (inside the
`async with`). -/
def isHolder : WebPC → Bool
  | .hasLock => true
  | .setup => true
  | .bindSite => true
  | .started => true
  | _ => false

/-- A task that has observed `WebCog._site` unset and has not yet set
it. -/
def inBindRegion : WebPC → Bool
  | .setup => true
  | .bindSite => true
  | _ => false

/-- Inductive invariant of the startup protocol: the semaphore permit
count and the set of holders form a mutex; the bind counter tracks
whether the site exists; and a task between the `None` check and the
assignment can only exist while the site is still unset. -/
def WebInv {n : Nat} (s : WebState n) : Prop :=
  ((s.lockAvail = 1 ∧ ∀ i, isHolder (s.pcs i) = false) ∨
    (s.lockAvail = 0 ∧ ∃ i, isHolder (s.pcs i) = true ∧
      ∀ j, isHolder (s.pcs j) = true → j = i)) ∧
  (s.site = false → s.binds = 0) ∧
  (s.site = true → s.binds = 1) ∧
  (∀ i, inBindRegion (s.pcs i) = true → s.site = false)

/- ------------------------------------------------------------------ -/
/- Helper lemmas.                                                      -/
/- ------------------------------------------------------------------ -/

/-- Python's split never yields an empty segment list. -/
theorem pySplitChar_ne_nil (sep : Char) (l : List Char) : pySplitChar sep l ≠ [] := by
  cases l with
  | nil => simp [pySplitChar]
  | cons c rest =>
    simp only [pySplitChar]
    cases h : pySplitChar sep rest with
    | nil => simp
    | cons seg segs =>
      by_cases hc : c = sep <;> simp [hc]

/-- Splitting a list that contains no separator yields that one segment. -/
theorem pySplitChar_no_sep (sep : Char) (l : List Char) (h : sep ∉ l) :
    pySplitChar sep l = [l] := by
  induction l with
  | nil => rfl
  | cons c rest ih =>
    have hc : c ≠ sep := fun hcs => h (hcs ▸ List.mem_cons_self c rest)
    have hrest : sep ∉ rest := fun hm => h (List.mem_cons_of_mem c hm)
    simp [pySplitChar, ih hrest, hc]

/-- Splitting around one separator occurrence, when the left part is
separator-free, cuts exactly there. -/
theorem pySplitChar_append (sep : Char) (a b : List Char) (ha : sep ∉ a) :
    pySplitChar sep (a ++ sep :: b) = a :: pySplitChar sep b := by
  induction a with
  | nil =>
    simp only [List.nil_append, pySplitChar]
    cases h : pySplitChar sep b with
    | nil => exact absurd h (pySplitChar_ne_nil sep b)
    | cons seg segs => simp
  | cons c a ih =>
    have hc : c ≠ sep := fun hcs => ha (hcs ▸ List.mem_cons_self c a)
    have ha2 : sep ∉ a := fun hm => ha (List.mem_cons_of_mem c hm)
    simp [pySplitChar, ih ha2, hc]

/- ------------------------------------------------------------------ -/
/- C8.                                                                 -/
/- ------------------------------------------------------------------ -/

/-- C8: prefix construction is idempotent — applying `PrefixConfig._key`
to an already prefixed (`KeyT`-tagged) key returns it unchanged, so
`_key(_key(k)) = _key(k)` for every prefix and key and the prefix is
never joined onto a key twice. -/
theorem key_tagging_idempotent :
    ∀ (pfx : String) (k : PyStr),
      PrefixConfig_key pfx (PrefixConfig_key pfx k) = PrefixConfig_key pfx k := by
  intro pfx k
  cases k <;> rfl

/- ------------------------------------------------------------------ -/
/- C5.                                                                 -/
/- ------------------------------------------------------------------ -/

/-- C5 counterexample: coercing the raw empty string to a declared
`Set[str]` yields the one-element collection containing the empty
string — not the empty collection the claim requires — and coercing it
to a `Set[int]` raises `ValueError` (`int('')`), because Python's
`''.split(',')` is `['']`. -/
theorem empty_string_collection_counterexample :
    _cast_for_annotation "" (.coll .set .str) = .ok (.coll .set [.vstr ""]) ∧
    (PyVal.coll .set [.vstr ""] ≠ .coll .set []) ∧
    _cast_for_annotation "" (.coll .set .int) = .error (.valueError "") :=
  ⟨rfl, by decide, rfl⟩

/-- C5 amended: typed lookup of a collection-typed setting splits the
raw value on commas, trims each element and coerces it to the declared
element type; but the raw empty string coerces to the ONE-element
collection holding the coercion of the empty string — `\x7b''\x7d` for a
`str` element type, and a `ValueError` (`InvalidValue`) for `int` —
never to an empty collection. -/
theorem collection_cast_split_trim_coerce :
    (∀ o : PyColl, _cast_for_annotation "" (.coll o .str) = .ok (.coll o [.vstr ""])) ∧
    (∀ o : PyColl, _cast_for_annotation "" (.coll o .int) = .error (.valueError "")) ∧
    (∀ (e : ScalarAnn) (x y : String) (u v : PyScalar),
      ',' ∉ x.data → ',' ∉ y.data →
      scalarCast e (pyStrip x) = .ok u → scalarCast e (pyStrip y) = .ok v →
      _cast_for_annotation (x ++ "," ++ y) (.coll .list e) = .ok (.coll .list [u, v])) := by
  refine ⟨?_, ?_, ?_⟩
  · intro o; cases o <;> rfl
  · intro o; cases o <;> rfl
  · intro e x y u v hx hy hu hv
    have hdata : (x ++ "," ++ y).data = x.data ++ ',' :: y.data := by
      simp [String.data_append]
    have hxeta : (⟨x.data⟩ : String) = x := rfl
    have hyeta : (⟨y.data⟩ : String) = y := rfl
    simp only [ _cast_for_annotation, _as_sequence, pySplit, hdata,
      pySplitChar_append ',' x.data y.data hx,
      pySplitChar_no_sep ',' y.data hy, List.map_cons, List.map_nil, hxeta, hyeta]
    simp [List.mapM, List.mapM.loop, hu, hv]
    rfl

/-- C5 witness: the split-trim-coerce clause at a concrete input. -/
theorem collection_cast_split_trim_coerce_witness :
    (',' ∉ ("10" : String).data) ∧
    _cast_for_annotation ("10" ++ "," ++ " 20") (.coll .list .int) =
      .ok (.coll .list [.vint 10, .vint 20]) :=
  ⟨by decide,
   collection_cast_split_trim_coerce.2.2 .int "10" " 20" (.vint 10) (.vint 20)
     (by decide) (by decide) rfl rfl⟩

/- ------------------------------------------------------------------ -/
/- C7.                                                                 -/
/- ------------------------------------------------------------------ -/

/-- C7 counterexample: after `EnvConfig.__setitem__` stores the empty
string, looking the key up again reports a MISS (`KeyError`) when the
process environment lacks the variable — not a hit with the empty
string — because `_getitem`'s `self.overrides.get(key) or environ[key]`
treats the falsy empty-string override as absent.  A non-empty
override, by contrast, is a hit. -/
theorem env_empty_override_counterexample :
    EnvConfig_get "WELOVEBOT" (EnvConfig_set "WELOVEBOT" (fun _ => none) (.raw "FOO") "")
        (fun _ => none) (.raw "FOO") = .error .keyError ∧
    EnvConfig_get "WELOVEBOT" (EnvConfig_set "WELOVEBOT" (fun _ => none) (.raw "FOO") "x")
        (fun _ => none) (.raw "FOO") = .ok "x" :=
  ⟨rfl, rfl⟩

/-- C7 amended: a lookup after `__setitem__` of a NON-empty value is a
hit with that value, but after `__setitem__` of the empty string the
lookup falls through to the process environment: it reports the
environment's value when the prefixed variable exists and a miss
(`KeyError`) otherwise, so an empty-string override is
indistinguishable from no override at all. -/
theorem env_override_lookup_behavior :
    ∀ (pfx : String) (ov env : String → Option String) (k : PyStr) (v : String),
      (v ≠ "" →
        EnvConfig_get pfx (EnvConfig_set pfx ov k v) env k = .ok v) ∧
      (EnvConfig_get pfx (EnvConfig_set pfx ov k "") env k =
        match env (keyStr (PrefixConfig_key pfx k)) with
        | some w => .ok w
        | none => .error .keyError) := by
  intro pfx ov env k v
  constructor
  · intro hv
    simp [EnvConfig_get, EnvConfig_set, EnvConfig_getitem, updateFn, pyTruthy, hv]
  · simp [EnvConfig_get, EnvConfig_set, EnvConfig_getitem, updateFn, pyTruthy]

/-- C7 witness: the non-empty clause of the amended behavior at a
concrete input. -/
theorem env_override_lookup_behavior_witness :
    (("x" : String) ≠ "") ∧
    EnvConfig_get "P" (EnvConfig_set "P" (fun _ => none) (.raw "A") "x")
        (fun _ => none) (.raw "A") = .ok "x" :=
  ⟨by decide,
   (env_override_lookup_behavior "P" (fun _ => none) (fun _ => none) (.raw "A") "x").1
     (by decide)⟩

/- ------------------------------------------------------------------ -/
/- C4.                                                                 -/
/- ------------------------------------------------------------------ -/

/-- C4 counterexample: with `TINYBEANS_INTERVAL` unset when the class
body is evaluated (bind time) and set to `30` when the listener fires,
the spawned loop sleeps 900000 ms (the bind-time 15 minutes), not the
1800000 ms that resolution "at the moment the triggering listener
event fires" would give: the interval is computed by the decorator
factory at class-definition time and closed over. -/
theorem periodic_interval_bind_time_counterexample :
    (tinybeans_periodic_sync_binding (fun _ => none)).map
        (fun b => perodic_loop_interval_ms b
          (fun k => if k = "TINYBEANS_INTERVAL" then some "30" else none)) =
      some 900000 ∧
    spec_fire_time_interval_ms
        (fun k => if k = "TINYBEANS_INTERVAL" then some "30" else none) =
      some 1800000 ∧
    (900000 : Int) ≠ 1800000 :=
  ⟨rfl, rfl, by decide⟩

/-- C4 amended: the interval of a periodic task is resolved exactly
once, at bind (class-definition) time, from the literal integer
components the decorator factory receives — for `Tinybeans`, the
`TINYBEANS_INTERVAL` environment variable read directly from
`os.environ` while the class body evaluates — and the environment in
effect when the triggering listener fires never affects the cadence. -/
theorem periodic_interval_resolved_at_bind_time :
    ∀ (envAtBind envAtFire : String → Option String) (m : Int),
      tinybeans_interval_minutes envAtBind = some m →
      tinybeans_periodic_sync_binding envAtBind =
        some (perodic_task_bind 0 0 0 0 m 0 "on_ready") ∧
      perodic_loop_interval_ms (perodic_task_bind 0 0 0 0 m 0 "on_ready") envAtFire =
        60000 * m ∧
      (∀ (sec w d h mi ms : Int) (listener : String),
        perodic_loop_interval_ms (perodic_task_bind sec w d h mi ms listener) envAtFire =
          perodic_task_interval_ms sec w d h mi ms) := by
  intro envB envF m hm
  refine ⟨?_, ?_, fun sec w d h mi ms listener => rfl⟩
  · simp [tinybeans_periodic_sync_binding, hm]
  · simp only [perodic_loop_interval_ms, perodic_task_bind, perodic_task_interval_ms]
    ring

/-- C4 witness: the amended behavior at a concrete environment. -/
theorem periodic_interval_resolved_at_bind_time_witness :
    tinybeans_interval_minutes (fun _ => none) = some 15 ∧
    perodic_loop_interval_ms (perodic_task_bind 0 0 0 0 15 0 "on_ready")
        (fun _ => none) = 60000 * 15 :=
  ⟨rfl,
   (periodic_interval_resolved_at_bind_time (fun _ => none) (fun _ => none) 15 rfl).2.1⟩

/- ------------------------------------------------------------------ -/
/- C2.                                                                 -/
/- ------------------------------------------------------------------ -/

/-- C2: if the bound body of a periodic task raises an exception on
iteration `N`, the `except Exception` clause logs it, the loop still
reaches the `asyncio.sleep(interval)` for the full interval, and
iteration `N + 1` executes; and a loop whose body only ever raises
`Exception`s never terminates because its body raised. -/
theorem perodic_task_survives_exception :
    ∀ (body : Nat → Option PyExc) (interval_ms : Int) (N : Nat) (e : PyExc),
      body N = some e → e.isExceptionSubclass = true →
      (perodic_task_iteration interval_ms (body N) =
          .continues (some e.msg) interval_ms ∧
        (perodic_loop_alive body interval_ms N = true →
          perodic_loop_alive body interval_ms (N + 1) = true)) ∧
      ((∀ n en, body n = some en → en.isExceptionSubclass = true) →
        ∀ n, perodic_loop_alive body interval_ms n = true) := by
  intro body interval_ms N e hN he
  constructor
  · constructor
    · simp [perodic_task_iteration, hN, he]
    · intro halive
      simp [perodic_loop_alive, halive, perodic_task_iteration, hN, he]
  · intro hall n
    induction n with
    | zero => rfl
    | succ n ih =>
      simp only [perodic_loop_alive, ih, Bool.true_and]
      cases hb : body n with
      | none => simp [perodic_task_iteration]
      | some en => simp [perodic_task_iteration, hall n en hb]

/-- C2 witness: a body that raises once on iteration 0 and then
succeeds still reaches iteration 2. -/
theorem perodic_task_survives_exception_witness :
    ((fun n => if n = 0 then some (⟨true, "boom"⟩ : PyExc) else none) 0 =
        some (⟨true, "boom"⟩ : PyExc)) ∧
    perodic_loop_alive (fun n => if n = 0 then some (⟨true, "boom"⟩ : PyExc) else none)
        1000 2 = true := by
  refine ⟨rfl, (perodic_task_survives_exception
    (fun n => if n = 0 then some (⟨true, "boom"⟩ : PyExc) else none)
    1000 0 ⟨true, "boom"⟩ rfl rfl).2 ?_ 2⟩
  intro n en h
  by_cases hn : n = 0
  · subst hn
    simp at h
    simp [← h]
  · simp [hn] at h

/- ------------------------------------------------------------------ -/
/- C10.                                                                -/
/- ------------------------------------------------------------------ -/

/-- C10: when the prefixed environment lookup of a key misses,
`CogConfig._getitem` falls back to the class attribute of the
extension's declared `Config` class named with the un-prefixed setting
name and returns its value; the original `KeyError` is re-raised only
when no such schema-level default attribute exists. -/
theorem cogconfig_schema_default_fallback :
    ∀ (ov env : String → Option String) (attrs : String → Option PyVal) (s : String),
      EnvConfig_getitem ov env s = .error .keyError →
      (∀ v, attrs (pyUnjoin s) = some v →
        CogConfig_getitem ov env attrs (.keyT s) = .ok v) ∧
      (attrs (pyUnjoin s) = none →
        CogConfig_getitem ov env attrs (.keyT s) = .error .keyError) := by
  intro ov env attrs s hmiss
  constructor
  · intro v hv
    simp [CogConfig_getitem, keyStr, hmiss, _unkey, hv]
  · intro hv
    simp [CogConfig_getitem, keyStr, hmiss, _unkey, hv]

/-- C10 witness: a `CHANNEL` default on the `Config` class serves a
miss of the fully prefixed key, and the un-prefixed name is recovered
from the tagged key. -/
theorem cogconfig_schema_default_fallback_witness :
    (pyUnjoin "WELOVEBOT__TINYBEANS__CHANNEL" = "CHANNEL") ∧
    CogConfig_getitem (fun _ => none) (fun _ => none)
        (fun nm => if nm = "CHANNEL" then some (.scalar (.vint 42)) else none)
        (.keyT "WELOVEBOT__TINYBEANS__CHANNEL") = .ok (.scalar (.vint 42)) :=
  ⟨rfl,
   (cogconfig_schema_default_fallback (fun _ => none) (fun _ => none)
       (fun nm => if nm = "CHANNEL" then some (.scalar (.vint 42)) else none)
       "WELOVEBOT__TINYBEANS__CHANNEL" rfl).1 (.scalar (.vint 42)) rfl⟩

/- ------------------------------------------------------------------ -/
/- C6.                                                                 -/
/- ------------------------------------------------------------------ -/

/-- C6: `Config.get(key, default)` on a typed chain never raises on a
configuration miss — a `KeyError` from the chain yields the default —
while an undeclared key (`TypeError`) and a value that fails coercion
to its declared type (`ValueError`) propagate out of `get`. -/
theorem config_get_defaults_only_on_miss :
    ∀ (ann : String → Option TypeAnn) (configs : List Source) (key : String)
      (d : Option PyVal),
      (ann key = none →
        Config_get (typedChain_getitem ann configs) key d = .error (.typeError key)) ∧
      (∀ a, ann key = some a → chain_getitem configs key = .error .keyError →
        Config_get (typedChain_getitem ann configs) key d = .ok d) ∧
      (∀ a v msg, ann key = some a → chain_getitem configs key = .ok v →
        _cast_for_annotation v a = .error (.valueError msg) →
        Config_get (typedChain_getitem ann configs) key d = .error (.valueError msg)) := by
  intro ann configs key d
  refine ⟨?_, ?_, ?_⟩
  · intro h
    simp [Config_get, typedChain_getitem, h]
  · intro a ha hchain
    simp [Config_get, typedChain_getitem, ha, hchain]
  · intro a v msg ha hchain hcast
    simp [Config_get, typedChain_getitem, ha, hchain, hcast]

/-- C6 witness: the three clauses at concrete inputs — an undeclared
key propagates `TypeError`, a declared key that misses every source
yields the default, and a declared key whose raw value fails `int`
coercion propagates `ValueError`. -/
theorem config_get_defaults_only_on_miss_witness :
    Config_get (typedChain_getitem (fun _ => none) [⟨0, fun _ => none⟩]) "B"
        none = .error (.typeError "B") ∧
    Config_get (typedChain_getitem (fun k => if k = "A" then some (.scalar .int) else none)
        [⟨0, fun _ => none⟩]) "A" (some (.scalar (.vint 1))) =
      .ok (some (.scalar (.vint 1))) ∧
    Config_get (typedChain_getitem (fun k => if k = "A" then some (.scalar .int) else none)
        [⟨0, fun k => if k = "A" then some "7x" else none⟩]) "A" none =
      .error (.valueError "7x") :=
  ⟨(config_get_defaults_only_on_miss (fun _ => none) [⟨0, fun _ => none⟩] "B" none).1 rfl,
   (config_get_defaults_only_on_miss (fun k => if k = "A" then some (.scalar .int) else none)
       [⟨0, fun _ => none⟩] "A" (some (.scalar (.vint 1)))).2.1 (.scalar .int) rfl rfl,
   (config_get_defaults_only_on_miss (fun k => if k = "A" then some (.scalar .int) else none)
       [⟨0, fun k => if k = "A" then some "7x" else none⟩] "A" none).2.2
     (.scalar .int) "7x" "7x" rfl rfl rfl⟩

/- ------------------------------------------------------------------ -/
/- C3.                                                                 -/
/- ------------------------------------------------------------------ -/

/-- C3 counterexample: discovering a disabled Cog leaves the registry
without any slot for it and reports the logged skip; a second
discovery attempt under the same name again succeeds — it does NOT
raise `DuplicateExtension` — and an enabled re-discovery registers
silently, contradicting the claim that the disabled Extension still
occupies its registry slot. -/
theorem disabled_extension_registry_counterexample :
    discover_extension [] ⟨"X", false, false, .cogInstance "X" false⟩ =
        .ok ([], .skippedDisabled) ∧
    discover_extension [] ⟨"X", false, false, .cogInstance "X" false⟩ ≠
        .error "DuplicateExtension" ∧
    discover_extension [] ⟨"X", false, false, .cogInstance "X" true⟩ =
        .ok (["X"], .registeredCog) ∧
    ¬ ("X" ∈ ([] : List String)) := by
  refine ⟨rfl, ?_, rfl, by decide⟩
  intro h
  rw [show discover_extension [] ⟨"X", false, false, .cogInstance "X" false⟩ =
      .ok ([], .skippedDisabled) from rfl] at h
  exact Except.noConfusion h

/-- C3 amended: a discovered Extension whose `enabled` flag resolves to
false is logged and skipped: `add_cog` is never called for it, so none
of its bindings are registered (hence none ever execute) — but it does
NOT occupy a registry slot, so a later discovery attempt under the
same name does not raise `DuplicateExtension`; it is re-classified
afresh (skipped again if still disabled, registered if now enabled). -/
theorem disabled_extension_skipped_no_slot :
    ∀ (registry : List String) (l : Loadable) (n : String),
      pyStartsWithUnderscore l.name = false →
      l.isModuleOrLogger = false →
      l.moduleMismatch = false →
      (l.kind = .cogInstance n false ∨ l.kind = .cogClass n false) →
      discover_extension registry l = .ok (registry, .skippedDisabled) := by
  intro registry l n h1 h2 h3 hk
  rcases hk with hk | hk <;> simp [discover_extension, h1, h2, h3, hk]

/-- C3 witness: the amended behavior at a concrete disabled Cog and a
non-empty registry. -/
theorem disabled_extension_skipped_no_slot_witness :
    discover_extension ["Y"] ⟨"X", false, false, .cogClass "X" false⟩ =
      .ok (["Y"], .skippedDisabled) :=
  disabled_extension_skipped_no_slot ["Y"] ⟨"X", false, false, .cogClass "X" false⟩ "X"
    rfl rfl rfl (Or.inr rfl)

/- ------------------------------------------------------------------ -/
/- C1.                                                                 -/
/- ------------------------------------------------------------------ -/

/-- C1 counterexample: in the chain `[a, b, a]` where `a` (one object,
occurring first and last) misses and `b` hits, `ChainConfig._getitem`
raises `KeyError` at the FIRST member — because `c is self.configs[-1]`
is true for the first occurrence of the last object — without ever
trying `b`, even though `b` is the first member whose lookup succeeds. -/
theorem chainConfig_first_hit_counterexample :
    chain_getitem [⟨0, fun _ => none⟩, ⟨1, fun _ => some "v"⟩, ⟨0, fun _ => none⟩]
        "K" = .error .keyError ∧
    firstHit [⟨0, fun _ => none⟩, ⟨1, fun _ => some "v"⟩, ⟨0, fun _ => none⟩]
        "K" = some "v" :=
  ⟨rfl, rfl⟩

/-- Induction core for the chain lookup: as long as the identity of the
last member never occurs at an earlier position, the loop realizes
first-hit-wins with a miss only after every member missed. -/
theorem chainAux_spec (key : String) (lastId : Nat) :
    ∀ (l : List Source),
      (∀ c ∈ l.dropLast, c.id ≠ lastId) →
      (∃ c, l.getLast? = some c ∧ c.id = lastId) →
      chainAux lastId l key =
        (match firstHit l key with
         | some v => .ok v
         | none => .error .keyError) := by
  intro l
  induction l with
  | nil =>
    intro _ hex
    rcases hex with ⟨c, hc, _⟩
    simp at hc
  | cons c rest ih =>
    intro hdrop hex
    cases hlook : c.lookup key with
    | some v => simp [chainAux, firstHit, hlook]
    | none =>
      cases rest with
      | nil =>
        rcases hex with ⟨d, hd, hid⟩
        rw [List.getLast?_singleton] at hd
        cases hd
        simp [chainAux, firstHit, hlook, hid]
      | cons r rs =>
        have hcne : c.id ≠ lastId := by
          apply hdrop
          show c ∈ (c :: r :: rs).dropLast
          exact List.mem_cons_self c (r :: rs).dropLast
        have hdrop2 : ∀ d ∈ (r :: rs).dropLast, d.id ≠ lastId := by
          intro d hd
          apply hdrop
          show d ∈ (c :: r :: rs).dropLast
          exact List.mem_cons_of_mem c hd
        have hex2 : ∃ d, (r :: rs).getLast? = some d ∧ d.id = lastId := by
          rcases hex with ⟨d, hd, hid⟩
          rw [List.getLast?_cons_cons] at hd
          exact ⟨d, hd, hid⟩
        have hstep : chainAux lastId (c :: r :: rs) key = chainAux lastId (r :: rs) key := by
          simp [chainAux, hlook, hcne]
        have hfh : firstHit (c :: r :: rs) key = firstHit (r :: rs) key := by
          simp [firstHit, hlook]
        rw [hstep, hfh, ih hdrop2 hex2]

/-- C1 amended: for every non-empty chain whose LAST member does not
also occur (as the same object) at an earlier position — which holds
for every chain of pairwise-distinct sources, in particular the
two-member chains the runtime builds — `ChainConfig._getitem` returns
the value of the first member whose lookup succeeds, and raises
`KeyError` only after every member has missed.  When the last member
does occur earlier, the lookup can instead fail at that earlier
occurrence (see the counterexample). -/
theorem chainConfig_first_hit_wins :
    ∀ (configs : List Source) (key : String) (last : Source),
      configs.getLast? = some last →
      (∀ c ∈ configs.dropLast, c.id ≠ last.id) →
      chain_getitem configs key =
        (match firstHit configs key with
         | some v => .ok v
         | none => .error .keyError) := by
  intro configs key last hlast hdrop
  unfold chain_getitem
  rw [hlast]
  exact chainAux_spec key last.id configs hdrop ⟨last, hlast, rfl⟩

/-- C1 witness: a two-member chain of distinct sources where the first
member misses and the second hits resolves to the second member's
value. -/
theorem chainConfig_first_hit_wins_witness :
    ([⟨0, fun _ => none⟩, ⟨1, fun k => if k = "K" then some "w" else none⟩] :
        List Source).getLast? = some ⟨1, fun k => if k = "K" then some "w" else none⟩ ∧
    chain_getitem [⟨0, fun _ => none⟩, ⟨1, fun k => if k = "K" then some "w" else none⟩]
        "K" = .ok "w" := by
  constructor
  · rfl
  · rw [chainConfig_first_hit_wins
      [⟨0, fun _ => none⟩, ⟨1, fun k => if k = "K" then some "w" else none⟩] "K"
      ⟨1, fun k => if k = "K" then some "w" else none⟩ rfl ?_]
    · rfl
    · intro c hc
      rw [show ([⟨0, fun _ => none⟩,
          ⟨1, fun k => if k = "K" then some "w" else none⟩] : List Source).dropLast =
          [⟨0, fun _ => none⟩] from rfl] at hc
      rw [List.mem_singleton] at hc
      subst hc
      decide

/- ------------------------------------------------------------------ -/
/- C9.                                                                 -/
/- ------------------------------------------------------------------ -/

/-- A task between the site check and the assignment holds the lock. -/
theorem region_isHolder (pc : WebPC) (h : inBindRegion pc = true) : isHolder pc = true := by
  cases pc <;> simp_all [inBindRegion, isHolder]

/-- If some task holds the lock, the mutex disjunct of the invariant
is in its right branch and that task is the unique holder. -/
theorem lockInv_right {n : Nat} {s : WebState n} (i : Fin n)
    (hlock : (s.lockAvail = 1 ∧ ∀ k, isHolder (s.pcs k) = false) ∨
      (s.lockAvail = 0 ∧ ∃ j, isHolder (s.pcs j) = true ∧
        ∀ k, isHolder (s.pcs k) = true → k = j))
    (hi : isHolder (s.pcs i) = true) :
    s.lockAvail = 0 ∧ ∀ k, isHolder (s.pcs k) = true → k = i := by
  rcases hlock with ⟨h1, hnone⟩ | ⟨h0, j, hj, huniq⟩
  · rw [hnone i] at hi
    exact Bool.noConfusion hi
  · have hij : i = j := huniq i hi
    subst hij
    exact ⟨h0, huniq⟩

/-- The invariant holds initially. -/
theorem webInv_init (n : Nat) : WebInv (WebCog_init n) := by
  unfold WebInv WebCog_init
  refine ⟨Or.inl ⟨rfl, fun i => rfl⟩, fun _ => rfl, fun h => Bool.noConfusion h,
    fun i h => rfl⟩

/-- Every step of the startup protocol preserves the invariant. -/
theorem webInv_step {n : Nat} {s t : WebState n} (hs : WebInv s)
    (hst : WebStep n s t) : WebInv t := by
  unfold WebInv at hs ⊢
  obtain ⟨hlock, hsf, hstrue, hregion⟩ := hs
  cases hst with
  | acquire i hpc havail =>
    rcases hlock with ⟨h1, hnone⟩ | ⟨h0, j, hj, huniq⟩
    · refine ⟨Or.inr ⟨?_, i, ?_, ?_⟩, hsf, hstrue, ?_⟩
      · show s.lockAvail - 1 = 0
        rw [h1]
      · show isHolder (Function.update s.pcs i .hasLock i) = true
        rw [Function.update_same]
        rfl
      · intro k hk
        by_cases hik : k = i
        · exact hik
        · simp only [Function.update_noteq hik] at hk
          rw [hnone k] at hk
          exact Bool.noConfusion hk
      · intro k hk
        by_cases hik : k = i
        · subst hik
          simp only [Function.update_same] at hk
          exact Bool.noConfusion hk
        · simp only [Function.update_noteq hik] at hk
          exact hregion k hk
    · rw [h0] at havail
      exact absurd havail (lt_irrefl 0)
  | checkStarted i hpc hsite =>
    obtain ⟨h0, huniq⟩ := lockInv_right i hlock (by rw [hpc]; rfl)
    refine ⟨Or.inl ⟨?_, ?_⟩, hsf, hstrue, ?_⟩
    · show s.lockAvail + 1 = 1
      rw [h0]
    · intro k
      by_cases hik : k = i
      · subst hik
        simp only [Function.update_same]
        rfl
      · simp only [Function.update_noteq hik]
        cases hh : isHolder (s.pcs k) with
        | false => rfl
        | true => exact absurd (huniq k hh) hik
    · intro k hk
      by_cases hik : k = i
      · subst hik
        simp only [Function.update_same] at hk
        exact Bool.noConfusion hk
      · simp only [Function.update_noteq hik] at hk
        exact hregion k hk
  | checkNotStarted i hpc hsite =>
    obtain ⟨h0, huniq⟩ := lockInv_right i hlock (by rw [hpc]; rfl)
    refine ⟨Or.inr ⟨h0, i, ?_, ?_⟩, hsf, hstrue, ?_⟩
    · show isHolder (Function.update s.pcs i .setup i) = true
      rw [Function.update_same]
      rfl
    · intro k hk
      by_cases hik : k = i
      · exact hik
      · simp only [Function.update_noteq hik] at hk
        exact huniq k hk
    · intro k hk
      exact hsite
  | runnerSetup i hpc =>
    obtain ⟨h0, huniq⟩ := lockInv_right i hlock (by rw [hpc]; rfl)
    have hsite : s.site = false := hregion i (by rw [hpc]; rfl)
    refine ⟨Or.inr ⟨h0, i, ?_, ?_⟩, hsf, hstrue, ?_⟩
    · show isHolder (Function.update s.pcs i .bindSite i) = true
      rw [Function.update_same]
      rfl
    · intro k hk
      by_cases hik : k = i
      · exact hik
      · simp only [Function.update_noteq hik] at hk
        exact huniq k hk
    · intro k hk
      exact hsite
  | bind i hpc =>
    obtain ⟨h0, huniq⟩ := lockInv_right i hlock (by rw [hpc]; rfl)
    have hsite : s.site = false := hregion i (by rw [hpc]; rfl)
    have hbinds0 : s.binds = 0 := hsf hsite
    refine ⟨Or.inr ⟨h0, i, ?_, ?_⟩, ?_, ?_, ?_⟩
    · show isHolder (Function.update s.pcs i .started i) = true
      rw [Function.update_same]
      rfl
    · intro k hk
      by_cases hik : k = i
      · exact hik
      · simp only [Function.update_noteq hik] at hk
        exact huniq k hk
    · intro h
      exact Bool.noConfusion h
    · intro _
      show s.binds + 1 = 1
      rw [hbinds0]
    · intro k hk
      by_cases hik : k = i
      · subst hik
        simp only [Function.update_same] at hk
        exact Bool.noConfusion hk
      · simp only [Function.update_noteq hik] at hk
        exact absurd (huniq k (region_isHolder _ hk)) hik
  | exitLock i hpc =>
    obtain ⟨h0, huniq⟩ := lockInv_right i hlock (by rw [hpc]; rfl)
    refine ⟨Or.inl ⟨?_, ?_⟩, hsf, hstrue, ?_⟩
    · show s.lockAvail + 1 = 1
      rw [h0]
    · intro k
      by_cases hik : k = i
      · subst hik
        simp only [Function.update_same]
        rfl
      · simp only [Function.update_noteq hik]
        cases hh : isHolder (s.pcs k) with
        | false => rfl
        | true => exact absurd (huniq k hh) hik
    · intro k hk
      by_cases hik : k = i
      · subst hik
        simp only [Function.update_same] at hk
        exact Bool.noConfusion hk
      · simp only [Function.update_noteq hik] at hk
        exact hregion k hk

/-- C9: starting the shared HTTP site is idempotent — over every
interleaving of any number of concurrent `WebCog.start` invocations
(each acquiring the class-level one-permit semaphore, checking
`WebCog._site`, and binding only when it observed no site), every
reachable state has bound the listening socket at most once, and no
bind at all happens while `WebCog._site` is still unset at rest;
callers that observe the started site return without binding. -/
theorem web_site_binds_at_most_once :
    ∀ (n : Nat) (s : WebState n), WebReachable n s →
      s.binds ≤ 1 ∧ (s.site = false → s.binds = 0) := by
  intro n s hreach
  have hinv : WebInv s := by
    induction hreach with
    | refl => exact webInv_init n
    | tail hsteps hstep ih => exact webInv_step ih hstep
  unfold WebInv at hinv
  obtain ⟨_, hsf, hstrue, _⟩ := hinv
  cases hsite : s.site with
  | false =>
    rw [hsf hsite]
    exact ⟨Nat.zero_le 1, fun _ => rfl⟩
  | true =>
    rw [hstrue hsite]
    exact ⟨le_refl 1, fun h => Bool.noConfusion h⟩

/-- C9 witness: the startup state of two HTTP-capable extensions is
reachable and has bound the socket at most once. -/
theorem web_site_binds_at_most_once_witness :
    (WebCog_init 2).binds ≤ 1 :=
  (web_site_binds_at_most_once 2 (WebCog_init 2) Relation.ReflTransGen.refl).1
